import Mathlib

/-!
Verification of the rosella-cli branch UI core: the filter engine, the
viewport navigation algorithm, the reload token discipline, the modal
prompt handlers of GitBranchUI.tsx, and the branch-list ordering of
GitManager.getBranches. All indices are JavaScript numbers, modelled as
integers; fallible backend calls are modelled by their result values.
-/

namespace Rosella

/-- Branch record as produced by GitManager.getBranches and consumed by the
UI (BranchInfo in src/types/index.ts, plus the optional fields the current
GitManager.getBranches pushes). -/
structure BranchInfo where
  name : String
  current : Bool
  commit : String
  label : Option String := none
  behindRemote : Option Nat := none
  hasUncommittedChanges : Option Bool := none
deriving Repr, DecidableEq

/-- Search mode: the mode field of SearchState is the union normal | regex. -/
inductive SearchMode where
  | normal
  | regex
deriving Repr, DecidableEq

/-- SearchState from src/types/index.ts. -/
structure SearchState where
  active : Bool
  query : String
  mode : SearchMode
deriving Repr, DecidableEq

/-- Decides whether pat occurs at the head of s (on character lists). -/
def chStarts : List Char → List Char → Bool
  | _, [] => true
  | [], _ :: _ => false
  | a :: s, b :: pat => a = b && chStarts s pat

/-- Decides whether pat occurs anywhere inside s, modelling the JavaScript
String.prototype.includes used by the filter and the error classifiers. -/
def chContains : List Char → List Char → Bool
  | [], pat => chStarts [] pat
  | a :: s, pat => chStarts (a :: s) pat || chContains s pat

/-- String-level substring test (JavaScript String.prototype.includes). -/
def strContains (s pat : String) : Bool :=
  chContains s.toList pat.toList

/-- The filter engine (filterBranches in GitBranchUI.tsx, lines 165-191).
The JavaScript RegExp facility is an external matcher: compileRegex models
the construction of a case-insensitive RegExp from the query text, returning
none when compilation throws and otherwise the compiled test predicate.
Returns the new filteredBranches list together with the new
searchValidationError. -/
def filterBranches (compileRegex : String → Option (String → Bool))
    (branches : List BranchInfo) (search : SearchState) :
    List BranchInfo × Option String :=
  if search.query = "" then (branches, none)
  else
    match search.mode with
    | SearchMode.regex =>
      match compileRegex search.query with
      | some test => (branches.filter fun b => test b.name, none)
      | none => (branches, some "Invalid regex pattern")
    | SearchMode.normal =>
      (branches.filter fun b => strContains b.name.toLower search.query.toLower,
       none)

/-- The comparator passed to Array.prototype.sort in GitManager.getBranches:
current branch first, then a branch named main or master, then the rest by
name (localeCompare modelled as the codepoint order on strings). -/
def branchCompare (a b : BranchInfo) : Int :=
  if a.current then -1
  else if b.current then 1
  else if a.name = "main" ∨ a.name = "master" then -1
  else if b.name = "main" ∨ b.name = "master" then 1
  else if a.name < b.name then -1
  else if b.name < a.name then 1
  else 0

/-- Nonpositive comparator result, the before-or-tied relation of the sort. -/
def branchLe (a b : BranchInfo) : Bool :=
  decide (branchCompare a b ≤ 0)

/-- Final step of GitManager.getBranches: a stable sort of the parsed branch
records by branchCompare (JavaScript Array.prototype.sort is stable, modelled
by mergeSort). -/
def sortBranches (l : List BranchInfo) : List BranchInfo :=
  l.mergeSort branchLe

/-- Rank of a branch in the documented ordering: 0 for the current branch,
1 for a branch named main or master, 2 otherwise. -/
def branchRank (b : BranchInfo) : Nat :=
  if b.current then 0
  else if b.name = "main" ∨ b.name = "master" then 1
  else 2

/-- Relative order the branch-list claim describes for two branches placed
in this order in the snapshot. -/
def claimOrder (a b : BranchInfo) : Prop :=
  branchRank a ≤ branchRank b ∧
    (branchRank a = 2 → branchRank b = 2 → a.name ≤ b.name)

/-- Navigation direction argument of calculateNavigation. -/
inductive NavDir where
  | up
  | down
deriving Repr, DecidableEq

/-- calculateNavigation from GitBranchUI.tsx, lines 687-721. -/
def calculateNavigation (direction : NavDir)
    (currentIndex currentTopIndex listLength viewportHeight : Int) :
    Int × Int :=
  match direction with
  | NavDir.up =>
    let newIndex := if currentIndex > 0 then currentIndex - 1 else listLength - 1
    let newTopIndex :=
      if newIndex < currentTopIndex then newIndex
      else if newIndex = listLength - 1 ∧ currentIndex = 0 then
        max 0 (listLength - viewportHeight)
      else currentTopIndex
    (newIndex, newTopIndex)
  | NavDir.down =>
    let newIndex := if currentIndex < listLength - 1 then currentIndex + 1 else 0
    let newTopIndex :=
      if newIndex ≥ currentTopIndex + viewportHeight then currentTopIndex + 1
      else if newIndex = 0 ∧ currentIndex = listLength - 1 then 0
      else currentTopIndex
    (newIndex, newTopIndex)

/-- Reconciliation effect run when filteredBranches.length changes
(GitBranchUI.tsx, lines 217-233). -/
def reconcileSelection (selectedIndex topIndex listLength viewportHeight : Int) :
    Int × Int :=
  if listLength = 0 then (0, 0)
  else if selectedIndex ≥ listLength then
    let newIndex := listLength - 1
    (newIndex, max 0 (newIndex - viewportHeight + 1))
  else (selectedIndex, topIndex)

/-- Modelled from the spec wording of moveUp, for comparison with
calculateNavigation: decrement or wrap to the end, pull topIndex up to the
new index when the selection moves above it, and on a wrap from index 0 set
topIndex to max(0, listLength - height). -/
def moveUpSpec (selectedIndex topIndex listLength height : Int) : Int × Int :=
  let newIndex := if selectedIndex > 0 then selectedIndex - 1 else listLength - 1
  let top1 := if newIndex < topIndex then newIndex else topIndex
  let top2 := if selectedIndex = 0 then max 0 (listLength - height) else top1
  (newIndex, top2)

/-- State touched by loadBranches: the loadRequestIdRef counter and the
snapshot, loading and error hooks it writes (GitBranchUI.tsx, lines 126-163). -/
structure LoadState where
  latestRequestId : Nat
  branches : List BranchInfo
  filteredBranches : List BranchInfo
  loading : Bool
  error : Option String
deriving Repr, DecidableEq

/-- Result of one reload attempt: repository check failed, branch list
fetched, or an exception message. -/
inductive LoadOutcome where
  | notRepo
  | ok (branchList : List BranchInfo)
  | err (msg : String)
deriving Repr, DecidableEq

/-- Synchronous head of loadBranches: increment loadRequestIdRef, record the
token of this request, and set loading. Returns the new state and the token
assigned to the request. -/
def issueLoad (s : LoadState) : LoadState × Nat :=
  ({ s with latestRequestId := s.latestRequestId + 1, loading := true },
   s.latestRequestId + 1)

/-- Completion of a reload carrying its token. The code checks the token
against loadRequestIdRef at every resumption point; since the counter only
grows, this is equivalent to the single check performed here before any
state write. -/
def completeLoad (s : LoadState) (token : Nat) (r : LoadOutcome) : LoadState :=
  if token = s.latestRequestId then
    match r with
    | LoadOutcome.notRepo =>
      { s with error := some "Not a git repository", loading := false }
    | LoadOutcome.ok branchList =>
      { s with branches := branchList, filteredBranches := branchList,
               loading := false }
    | LoadOutcome.err msg =>
      { s with error := some msg, loading := false }
  else s

/-- Prompt objects of shape { active, branchName } used by the confirmation,
forceDeletePrompt, checkoutPrompt, mergePrompt and rebasePrompt hooks. -/
structure PromptInfo where
  active : Bool
  branchName : String
deriving Repr, DecidableEq

/-- Prompt object of the pushPrompt hook. -/
structure PushPromptInfo where
  active : Bool
  needsUpstream : Bool
deriving Repr, DecidableEq

/-- State of the creation overlay. -/
structure CreationState where
  active : Bool
  branchName : String
  fromBranch : Option String := none
  validationError : Option String := none
deriving Repr, DecidableEq

/-- Aggregate component state of GitBranchUI: one field per useState hook
that the handlers under verification read or write. -/
structure UIState where
  branches : List BranchInfo
  filteredBranches : List BranchInfo
  selectedIndex : Int
  topIndex : Int
  loading : Bool
  error : Option String
  message : Option String
  showHelp : Bool
  search : SearchState
  searchValidationError : Option String
  confirmation : Option PromptInfo
  forceDeletePrompt : Option PromptInfo
  creation : CreationState
  checkoutPrompt : Option PromptInfo
  savedSelectionIndex : Int
  mergePrompt : Option PromptInfo
  rebasePrompt : Option PromptInfo
  pushPrompt : Option PushPromptInfo
  operationInProgress : Option String
  showErrorPane : Bool
deriving Repr, DecidableEq

/-- Resting state with no overlay active. -/
def idleState : UIState where
  branches := []
  filteredBranches := []
  selectedIndex := 0
  topIndex := 0
  loading := false
  error := none
  message := none
  showHelp := false
  search := ⟨false, "", SearchMode.normal⟩
  searchValidationError := none
  confirmation := none
  forceDeletePrompt := none
  creation := ⟨false, "", none, none⟩
  checkoutPrompt := none
  savedSelectionIndex := 0
  mergePrompt := none
  rebasePrompt := none
  pushPrompt := none
  operationInProgress := none
  showErrorPane := false

/-- Backend calls the dispatcher can issue to GitManager. -/
inductive BackendCall where
  | deleteBranch (name : String) (force : Bool)
  | checkout (name : String)
  | merge (name : String)
  | rebase (name : String)
  | push (setUpstream : Bool)
deriving Repr, DecidableEq

/-- handleDeleteRequest (GitBranchUI.tsx, lines 257-274). Indexing into
filteredBranches is modelled with get?; the handler is only reached with the
selection in bounds. -/
def handleDeleteRequest (s : UIState) : UIState :=
  if s.filteredBranches.length = 0 then s
  else
    match s.filteredBranches.get? s.selectedIndex.toNat with
    | none => s
    | some selectedBranch =>
      if selectedBranch.current then
        { s with error := some "Cannot delete the currently checked out branch" }
      else
        { s with error := none,
                 confirmation := some ⟨true, selectedBranch.name⟩ }

/-- handleMergeRequest (GitBranchUI.tsx, lines 450-466). -/
def handleMergeRequest (s : UIState) : UIState :=
  if s.filteredBranches.length = 0 then s
  else
    match s.filteredBranches.get? s.selectedIndex.toNat with
    | none => s
    | some selectedBranch =>
      if selectedBranch.current then
        { s with error := some "Cannot merge current branch into itself" }
      else
        { s with error := none,
                 mergePrompt := some ⟨true, selectedBranch.name⟩ }

/-- handleRebaseRequest (GitBranchUI.tsx, lines 494-510). -/
def handleRebaseRequest (s : UIState) : UIState :=
  if s.filteredBranches.length = 0 then s
  else
    match s.filteredBranches.get? s.selectedIndex.toNat with
    | none => s
    | some selectedBranch =>
      if selectedBranch.current then
        { s with error := some "Cannot rebase current branch onto itself" }
      else
        { s with error := none,
                 rebasePrompt := some ⟨true, selectedBranch.name⟩ }

/-- Error message wrapping of GitManager.deleteBranch: a raw failure whose
text mentions the unmerged condition is rewritten to a dedicated message,
every other failure is wrapped verbatim. -/
def deleteBranchErrorMessage (branchName : String) (force : Bool)
    (raw : String) : String :=
  if !force && strContains raw "not fully merged" then
    "Branch \x27" ++ branchName ++
      "\x27 is not fully merged. Use Shift+Delete to force delete."
  else
    "Failed to delete branch \x27" ++ branchName ++ "\x27: " ++ raw

/-- handleConfirmDelete (GitBranchUI.tsx, lines 276-314), given the result
of the awaited deleteBranch call (none on success) and the snapshot the
subsequent loadBranches applies on success. -/
def handleConfirmDelete (s : UIState) (force : Bool) (deleteErr : Option String)
    (reloaded : List BranchInfo) : UIState :=
  match s.confirmation with
  | none => s
  | some conf =>
    match deleteErr with
    | none =>
      { s with confirmation := none,
               branches := reloaded,
               filteredBranches := reloaded,
               loading := false,
               error := none,
               message := some ((if force then "Force deleted" else "Deleted")
                 ++ " branch \x27" ++ conf.branchName ++ "\x27") }
    | some errorMessage =>
      if !force && strContains errorMessage "not fully merged" then
        { s with confirmation := none,
                 forceDeletePrompt := some ⟨true, conf.branchName⟩ }
      else
        { s with confirmation := none,
                 error := some errorMessage }

/-- Synchronous head of handleConfirmDelete, up to the first await: nothing
is written before the deleteBranch call is issued. -/
def handleConfirmDeleteStart (s : UIState) (force : Bool) :
    UIState × Option BackendCall :=
  match s.confirmation with
  | none => (s, none)
  | some conf => (s, some (BackendCall.deleteBranch conf.branchName force))

/-- handleCancelDelete. -/
def handleCancelDelete (s : UIState) : UIState :=
  { s with confirmation := none }

/-- Synchronous head of handleForceDelete, up to the first await. -/
def handleForceDeleteStart (s : UIState) : UIState × Option BackendCall :=
  match s.forceDeletePrompt with
  | none => (s, none)
  | some p => (s, some (BackendCall.deleteBranch p.branchName true))

/-- handleCancelForceDelete. -/
def handleCancelForceDelete (s : UIState) : UIState :=
  { s with forceDeletePrompt := none }

/-- Synchronous head of handleConfirmMerge: clear the prompt, enter
operationInProgress and issue the merge call. -/
def handleConfirmMergeStart (s : UIState) : UIState × Option BackendCall :=
  match s.mergePrompt with
  | none => (s, none)
  | some p =>
    ({ s with mergePrompt := none, operationInProgress := some "Merging..." },
     some (BackendCall.merge p.branchName))

/-- handleCancelMerge. -/
def handleCancelMerge (s : UIState) : UIState :=
  { s with mergePrompt := none }

/-- Synchronous head of handleConfirmRebase. -/
def handleConfirmRebaseStart (s : UIState) : UIState × Option BackendCall :=
  match s.rebasePrompt with
  | none => (s, none)
  | some p =>
    ({ s with rebasePrompt := none, operationInProgress := some "Rebasing..." },
     some (BackendCall.rebase p.branchName))

/-- handleCancelRebase. -/
def handleCancelRebase (s : UIState) : UIState :=
  { s with rebasePrompt := none }

/-- Synchronous head of handleConfirmPush: the upstream-setting push. -/
def handleConfirmPushStart (s : UIState) : UIState × Option BackendCall :=
  match s.pushPrompt with
  | none => (s, none)
  | some _ =>
    ({ s with pushPrompt := none, operationInProgress := some "Pushing..." },
     some (BackendCall.push true))

/-- handleCancelPush. -/
def handleCancelPush (s : UIState) : UIState :=
  { s with pushPrompt := none }

/-- handleCheckoutPrompt (GitBranchUI.tsx, lines 399-444) up to its first
await: the prompt is cleared synchronously; answering yes issues the
checkout call, answering no restores the saved selection and scrolls it into
view. -/
def handleCheckoutPromptStart (s : UIState) (shouldCheckout : Bool)
    (viewportHeight : Int) : UIState × Option BackendCall :=
  match s.checkoutPrompt with
  | none => (s, none)
  | some p =>
    let s1 := { s with checkoutPrompt := none }
    if shouldCheckout then (s1, some (BackendCall.checkout p.branchName))
    else
      let newSelectedIndex :=
        min s1.savedSelectionIndex ((s1.filteredBranches.length : Int) - 1)
      let maxTopIndex := max 0 ((s1.filteredBranches.length : Int) - viewportHeight)
      let newTopIndex :=
        if newSelectedIndex < s1.topIndex then newSelectedIndex
        else if newSelectedIndex ≥ s1.topIndex + viewportHeight then
          min (newSelectedIndex - viewportHeight + 1) maxTopIndex
        else s1.topIndex
      ({ s1 with selectedIndex := newSelectedIndex, topIndex := newTopIndex },
       none)

/-- Confirmation-active branch of useInput: y or Y confirms a normal delete,
any other key cancels. -/
def confirmationKeyHandler (s : UIState) (input : Char) :
    UIState × Option BackendCall :=
  if input = 'y' ∨ input = 'Y' then handleConfirmDeleteStart s false
  else (handleCancelDelete s, none)

/-- ForceDeletePrompt-active branch of useInput. -/
def forceDeleteKeyHandler (s : UIState) (input : Char) :
    UIState × Option BackendCall :=
  if input = 'y' ∨ input = 'Y' then handleForceDeleteStart s
  else (handleCancelForceDelete s, none)

/-- MergePrompt-active branch of useInput. -/
def mergePromptKeyHandler (s : UIState) (input : Char) :
    UIState × Option BackendCall :=
  if input = 'y' ∨ input = 'Y' then handleConfirmMergeStart s
  else (handleCancelMerge s, none)

/-- RebasePrompt-active branch of useInput. -/
def rebasePromptKeyHandler (s : UIState) (input : Char) :
    UIState × Option BackendCall :=
  if input = 'y' ∨ input = 'Y' then handleConfirmRebaseStart s
  else (handleCancelRebase s, none)

/-- PushPrompt-active branch of useInput. -/
def pushPromptKeyHandler (s : UIState) (input : Char) :
    UIState × Option BackendCall :=
  if input = 'y' ∨ input = 'Y' then handleConfirmPushStart s
  else (handleCancelPush s, none)

/-- CheckoutPrompt-active branch of useInput. -/
def checkoutPromptKeyHandler (s : UIState) (viewportHeight : Int)
    (input : Char) : UIState × Option BackendCall :=
  if input = 'y' ∨ input = 'Y' then handleCheckoutPromptStart s true viewportHeight
  else handleCheckoutPromptStart s false viewportHeight

/-- Logical key events fed to useInput by ink. -/
inductive Key where
  | char (c : Char)
  | escape
  | ret
  | backspace
  | upArrow
  | downArrow
deriving Repr, DecidableEq

/-- Search-active branch of useInput (GitBranchUI.tsx, lines 852-894). -/
def searchKeyHandler (s : UIState) (viewportHeight : Int) (k : Key) : UIState :=
  match k with
  | Key.escape =>
    { s with search := ⟨false, "", SearchMode.normal⟩,
             searchValidationError := none }
  | Key.ret =>
    { s with search := { s.search with active := false },
             searchValidationError := none }
  | Key.backspace =>
    if s.search.query.length = 0 then
      { s with search := ⟨false, "", SearchMode.normal⟩,
               searchValidationError := none }
    else
      { s with search := { s.search with query := s.search.query.dropRight 1 } }
  | Key.upArrow =>
    let nav := calculateNavigation NavDir.up s.selectedIndex s.topIndex
      (s.filteredBranches.length : Int) viewportHeight
    { s with selectedIndex := nav.1, topIndex := nav.2 }
  | Key.downArrow =>
    let nav := calculateNavigation NavDir.down s.selectedIndex s.topIndex
      (s.filteredBranches.length : Int) viewportHeight
    { s with selectedIndex := nav.1, topIndex := nav.2 }
  | Key.char c =>
    { s with search := { s.search with query := s.search.query.push c } }

end Rosella

namespace Rosella

/-- Sample branch used in concrete instantiations. -/
def mainBranch : BranchInfo :=
  { name := "main", current := true, commit := "abc123" }

/-- Second sample branch used in concrete instantiations. -/
def featureBranch : BranchInfo :=
  { name := "feature-1", current := false, commit := "def456" }

lemma chContains_append_of_right (pat l2 : List Char)
    (h : chContains l2 pat = true) :
    ∀ l1, chContains (l1 ++ l2) pat = true := by
  intro l1
  induction l1 with
  | nil => simpa using h
  | cons a s ih =>
    simp only [List.cons_append, chContains, Bool.or_eq_true]
    exact Or.inr ih

lemma strContains_append_right (x y pat : String)
    (h : strContains y pat = true) : strContains (x ++ y) pat = true := by
  unfold strContains at *
  have hx : (x ++ y).toList = x.toList ++ y.toList := by
    simp [String.toList, String.data_append]
  rw [hx]
  exact chContains_append_of_right _ _ h _

/-- Initial reload state: counter 0, empty snapshot, loading. -/
def initialLoadState : LoadState := ⟨0, [], [], true, none⟩

/-- C1: every reload is assigned a strictly increasing request token; a
completion (success or failure) updates the snapshot or error state only if
its token still equals the latest issued token, and a superseded completion
is discarded with no state change; in particular after issuing reload 1 and
then reload 2, the completion of reload 1 is discarded whether it arrives
before or after the completion of reload 2, and the store reflects only the
result of reload 2. -/
theorem stale_response_suppression (s : LoadState) (t : Nat) (r : LoadOutcome)
    (bs1 bs2 : List BranchInfo) (ht : t ≠ s.latestRequestId) :
    completeLoad s t r = s ∧
    s.latestRequestId < (issueLoad s).2 ∧
    (issueLoad s).2 < (issueLoad (issueLoad s).1).2 ∧
    completeLoad (issueLoad (issueLoad s).1).1 (issueLoad s).2
        (LoadOutcome.ok bs1)
      = (issueLoad (issueLoad s).1).1 ∧
    (completeLoad (completeLoad (issueLoad (issueLoad s).1).1
        (issueLoad (issueLoad s).1).2 (LoadOutcome.ok bs2))
        (issueLoad s).2 (LoadOutcome.ok bs1)).branches = bs2 ∧
    (completeLoad (completeLoad (issueLoad (issueLoad s).1).1
        (issueLoad (issueLoad s).1).2 (LoadOutcome.ok bs2))
        (issueLoad s).2 (LoadOutcome.ok bs1)).filteredBranches = bs2 := by
  refine ⟨by simp [completeLoad, ht], by simp [issueLoad], by simp [issueLoad],
    ?_, ?_, ?_⟩ <;>
    simp [issueLoad, completeLoad]

/-- Witness for C1 at a concrete state and token. -/
theorem stale_response_suppression_witness :
    completeLoad initialLoadState 5 (LoadOutcome.err "boom") = initialLoadState ∧
    initialLoadState.latestRequestId < (issueLoad initialLoadState).2 ∧
    (issueLoad initialLoadState).2 < (issueLoad (issueLoad initialLoadState).1).2 ∧
    completeLoad (issueLoad (issueLoad initialLoadState).1).1
        (issueLoad initialLoadState).2 (LoadOutcome.ok [])
      = (issueLoad (issueLoad initialLoadState).1).1 ∧
    (completeLoad (completeLoad (issueLoad (issueLoad initialLoadState).1).1
        (issueLoad (issueLoad initialLoadState).1).2 (LoadOutcome.ok [mainBranch]))
        (issueLoad initialLoadState).2 (LoadOutcome.ok [])).branches = [mainBranch] ∧
    (completeLoad (completeLoad (issueLoad (issueLoad initialLoadState).1).1
        (issueLoad (issueLoad initialLoadState).1).2 (LoadOutcome.ok [mainBranch]))
        (issueLoad initialLoadState).2 (LoadOutcome.ok [])).filteredBranches
      = [mainBranch] :=
  stale_response_suppression initialLoadState 5 (LoadOutcome.err "boom")
    [] [mainBranch] (by decide)

/-- C5: a pattern query that fails to compile does not throw, leaves the
filtered list equal to the whole unfiltered list and sets the validation
error; a query that compiles clears the validation error and yields the
order-preserving sublist of branches whose names the compiled matcher
accepts. -/
theorem pattern_filter_fail_open
    (compileRegex : String → Option (String → Bool))
    (branches : List BranchInfo) (q : String) (hq : q ≠ "") :
    (compileRegex q = none →
      filterBranches compileRegex branches ⟨true, q, SearchMode.regex⟩
        = (branches, some "Invalid regex pattern")) ∧
    ∀ test, compileRegex q = some test →
      filterBranches compileRegex branches ⟨true, q, SearchMode.regex⟩
        = (branches.filter fun b => test b.name, none) ∧
      (branches.filter fun b => test b.name).Sublist branches := by
  constructor
  · intro hc
    simp [filterBranches, hq, hc]
  · intro test hc
    exact ⟨by simp [filterBranches, hq, hc], List.filter_sublist _⟩

/-- Witness for C5 with a matcher that rejects the query text. -/
theorem pattern_filter_fail_open_witness :
    filterBranches (fun _ => none) [mainBranch] ⟨true, "[", SearchMode.regex⟩
      = ([mainBranch], some "Invalid regex pattern") :=
  (pattern_filter_fail_open (fun _ => none) [mainBranch] "[" (by decide)).1 rfl

/-- C6: with an empty query text the filter returns the input list unchanged
in either mode and clears the validation error. -/
theorem empty_query_identity
    (compileRegex : String → Option (String → Bool))
    (branches : List BranchInfo) (active : Bool) (mode : SearchMode) :
    filterBranches compileRegex branches ⟨active, "", mode⟩ = (branches, none) := by
  simp [filterBranches]

end Rosella

namespace Rosella

/-- Concrete external matcher used in the search counterexample: the
compiled pattern "fe" accepts exactly the names containing it. -/
def sampleMatcher : String → Option (String → Bool) :=
  fun _ => some fun name => strContains name "fe"

/-- Searching state whose filtered list is consistent with its query: the
pattern "fe" keeps only feature-1 out of [main, feature-1]. -/
def searchSampleState : UIState :=
  { idleState with
      branches := [mainBranch, featureBranch],
      filteredBranches := [featureBranch],
      selectedIndex := 0,
      search := ⟨true, "fe", SearchMode.regex⟩ }

/-- C9 counterexample: pressing the confirm key in search mode keeps the
selected index relative to the filtered list (here 0, pointing at
feature-1), while the position of that item in the unfiltered list is 1; the
selection is not mapped back to the unfiltered position, refuting the claim
at this concrete state. -/
theorem search_confirm_counterexample :
    (filterBranches sampleMatcher searchSampleState.branches
        searchSampleState.search).1 = searchSampleState.filteredBranches ∧
    (searchKeyHandler searchSampleState 5 Key.ret).search.active = false ∧
    (searchKeyHandler searchSampleState 5 Key.ret).filteredBranches.get?
        (searchKeyHandler searchSampleState 5 Key.ret).selectedIndex.toNat
      = some featureBranch ∧
    (searchSampleState.branches.findIdx fun b => b.name = featureBranch.name)
      = 1 ∧
    (searchKeyHandler searchSampleState 5 Key.ret).selectedIndex = 0 ∧
    (searchKeyHandler searchSampleState 5 Key.ret).selectedIndex
      ≠ ((searchSampleState.branches.findIdx
            fun b => b.name = featureBranch.name : Nat) : Int) := by
  refine ⟨by decide, rfl, rfl, by decide, rfl, by decide⟩

/-- C9 amended: the confirm key in search mode deactivates the search
overlay and clears the validation error while retaining the query (hence the
filtered list) and the selected index within the filtered list unchanged, so
the same filtered item stays selected; no remapping to the unfiltered list
occurs. -/
theorem search_confirm_retains_filter (s : UIState) (viewportHeight : Int) :
    searchKeyHandler s viewportHeight Key.ret
      = { s with search := { s.search with active := false },
                 searchValidationError := none } := rfl

/-- C2: starting from a state satisfying the viewport invariant, every
navigation step (up or down, wrap included) and every list-length
reconciliation preserves topIndex ≤ selectedIndex ≤ topIndex + height - 1
and 0 ≤ selectedIndex < N for the applicable positive list length. -/
theorem viewport_invariant (dir : NavDir) (sel top n h m : Int)
    (hh : 1 ≤ h) (hn : 0 < n) (hm : 0 < m)
    (h1 : top ≤ sel) (h2 : sel ≤ top + h - 1) (h3 : 0 ≤ sel) (h4 : sel < n) :
    ((calculateNavigation dir sel top n h).2
        ≤ (calculateNavigation dir sel top n h).1 ∧
      (calculateNavigation dir sel top n h).1
        ≤ (calculateNavigation dir sel top n h).2 + h - 1 ∧
      0 ≤ (calculateNavigation dir sel top n h).1 ∧
      (calculateNavigation dir sel top n h).1 < n) ∧
    ((reconcileSelection sel top m h).2 ≤ (reconcileSelection sel top m h).1 ∧
      (reconcileSelection sel top m h).1
        ≤ (reconcileSelection sel top m h).2 + h - 1 ∧
      0 ≤ (reconcileSelection sel top m h).1 ∧
      (reconcileSelection sel top m h).1 < m) := by
  constructor
  · cases dir <;>
      · simp only [calculateNavigation]
        split_ifs <;> simp_all <;> omega
  · simp only [reconcileSelection]
    split_ifs <;> simp_all <;> omega

/-- Witness for C2 at a concrete state. -/
theorem viewport_invariant_witness :
    ((calculateNavigation NavDir.up 0 0 4 2).2
        ≤ (calculateNavigation NavDir.up 0 0 4 2).1 ∧
      (calculateNavigation NavDir.up 0 0 4 2).1
        ≤ (calculateNavigation NavDir.up 0 0 4 2).2 + 2 - 1 ∧
      0 ≤ (calculateNavigation NavDir.up 0 0 4 2).1 ∧
      (calculateNavigation NavDir.up 0 0 4 2).1 < 4) ∧
    ((reconcileSelection 0 0 3 2).2 ≤ (reconcileSelection 0 0 3 2).1 ∧
      (reconcileSelection 0 0 3 2).1 ≤ (reconcileSelection 0 0 3 2).2 + 2 - 1 ∧
      0 ≤ (reconcileSelection 0 0 3 2).1 ∧
      (reconcileSelection 0 0 3 2).1 < 3) :=
  viewport_invariant NavDir.up 0 0 4 2 3 (by decide) (by decide) (by decide)
    (by decide) (by decide) (by decide) (by decide)

/-- C3: under the viewport invariant, calculateNavigation up agrees with the
specified moveUp (decrement or wrap to listLength - 1, topIndex pulled up to
a new index above it, and max(0, listLength - height) on a wrap from 0), and
on a list of 4 items with height 2 from selectedIndex 0, topIndex 0 one move
up yields selectedIndex 3 and topIndex 2. -/
theorem moveUp_semantics (sel top n h : Int) (_hh : 1 ≤ h) (hn : 0 < n)
    (h0 : 0 ≤ top) (h1 : top ≤ sel) (_h2 : sel < n) :
    calculateNavigation NavDir.up sel top n h = moveUpSpec sel top n h ∧
    calculateNavigation NavDir.up 0 0 4 2 = (3, 2) := by
  constructor
  · simp only [calculateNavigation, moveUpSpec]
    split_ifs <;> simp_all <;> omega
  · decide

/-- Witness for C3 at the concrete wrap example. -/
theorem moveUp_semantics_witness :
    calculateNavigation NavDir.up 0 0 4 2 = moveUpSpec 0 0 4 2 ∧
    calculateNavigation NavDir.up 0 0 4 2 = (3, 2) :=
  moveUp_semantics 0 0 4 2 (by decide) (by decide) (by decide) (by decide)
    (by decide)

end Rosella

namespace Rosella

/-- State with the delete confirmation open on feature-1. -/
def deleteConfirmState : UIState :=
  { idleState with confirmation := some ⟨true, "feature-1"⟩ }

/-- C4: a non-force delete confirmed from the delete prompt that fails with
a message containing the unmerged marker re-enters the modal machine at the
force-delete confirmation with the same target, leaving the error state
untouched; any other delete failure clears the prompt and reports the
message; the GitManager wrapper preserves the unmerged marker in the
message it throws, so the escalation fires on wrapped backend failures. -/
theorem delete_escalation (s : UIState) (target msg raw : String)
    (reloaded : List BranchInfo)
    (hconf : s.confirmation = some ⟨true, target⟩) :
    (strContains msg "not fully merged" = true →
      handleConfirmDelete s false (some msg) reloaded
        = { s with confirmation := none,
                   forceDeletePrompt := some ⟨true, target⟩ }) ∧
    (strContains msg "not fully merged" = false →
      handleConfirmDelete s false (some msg) reloaded
        = { s with confirmation := none, error := some msg }) ∧
    (strContains raw "not fully merged" = true →
      strContains (deleteBranchErrorMessage target false raw)
          "not fully merged" = true) := by
  refine ⟨fun hm => ?_, fun hm => ?_, fun hr => ?_⟩
  · simp [handleConfirmDelete, hconf, hm]
  · simp [handleConfirmDelete, hconf, hm]
  · simp only [deleteBranchErrorMessage, hr, Bool.not_false, Bool.true_and,
      if_true]
    exact strContains_append_right _ _ _ (by decide)

/-- Witness for C4: the wrapped unmerged failure escalates to the
force-delete prompt with the same target. -/
theorem delete_escalation_witness :
    handleConfirmDelete deleteConfirmState false
        (some "Branch \x27feature-1\x27 is not fully merged. Use Shift+Delete to force delete.")
        []
      = { deleteConfirmState with
            confirmation := none,
            forceDeletePrompt := some ⟨true, "feature-1"⟩ } :=
  (delete_escalation deleteConfirmState "feature-1"
      "Branch \x27feature-1\x27 is not fully merged. Use Shift+Delete to force delete."
      "x" [] rfl).1 (by decide)

/-- C7: when the selected filtered item is the current branch, the delete,
merge and rebase openers only set a validation message and leave every
prompt and the rest of the state unchanged; when it is not current, they
open the corresponding confirmation on the selected branch and clear the
error. -/
theorem current_branch_guard (s : UIState) (b : BranchInfo)
    (hsel : s.filteredBranches.get? s.selectedIndex.toNat = some b) :
    (b.current = true →
      handleDeleteRequest s
        = { s with error := some "Cannot delete the currently checked out branch" } ∧
      handleMergeRequest s
        = { s with error := some "Cannot merge current branch into itself" } ∧
      handleRebaseRequest s
        = { s with error := some "Cannot rebase current branch onto itself" }) ∧
    (b.current = false →
      handleDeleteRequest s
        = { s with error := none, confirmation := some ⟨true, b.name⟩ } ∧
      handleMergeRequest s
        = { s with error := none, mergePrompt := some ⟨true, b.name⟩ } ∧
      handleRebaseRequest s
        = { s with error := none, rebasePrompt := some ⟨true, b.name⟩ }) := by
  have hne : ¬s.filteredBranches.length = 0 := by
    intro h0
    rw [List.length_eq_zero] at h0
    rw [h0] at hsel
    simp at hsel
  rw [List.get?_eq_getElem?] at hsel
  constructor <;> intro hcur <;>
    refine ⟨?_, ?_, ?_⟩ <;>
      simp [handleDeleteRequest, handleMergeRequest, handleRebaseRequest,
        hne, hsel, hcur]

/-- State with both sample branches visible and the current branch selected. -/
def guardSampleState : UIState :=
  { idleState with
      branches := [mainBranch, featureBranch],
      filteredBranches := [mainBranch, featureBranch],
      selectedIndex := 0 }

/-- Same list with the non-current branch selected. -/
def guardSampleState2 : UIState :=
  { guardSampleState with selectedIndex := 1 }

/-- Witness for C7 in both directions of the guard. -/
theorem current_branch_guard_witness :
    (handleDeleteRequest guardSampleState
        = { guardSampleState with
              error := some "Cannot delete the currently checked out branch" } ∧
      handleMergeRequest guardSampleState
        = { guardSampleState with
              error := some "Cannot merge current branch into itself" } ∧
      handleRebaseRequest guardSampleState
        = { guardSampleState with
              error := some "Cannot rebase current branch onto itself" }) ∧
    (handleDeleteRequest guardSampleState2
        = { guardSampleState2 with
              error := none,
              confirmation := some ⟨true, featureBranch.name⟩ } ∧
      handleMergeRequest guardSampleState2
        = { guardSampleState2 with
              error := none,
              mergePrompt := some ⟨true, featureBranch.name⟩ } ∧
      handleRebaseRequest guardSampleState2
        = { guardSampleState2 with
              error := none,
              rebasePrompt := some ⟨true, featureBranch.name⟩ }) :=
  ⟨(current_branch_guard guardSampleState mainBranch rfl).1 rfl,
    (current_branch_guard guardSampleState2 featureBranch rfl).2 rfl⟩

/-- C8 counterexample: with the delete confirmation active, pressing yes
issues the delete call but does not transition the modal state to
OperationInProgress, refuting the claim for the ConfirmDelete overlay. -/
theorem confirm_no_opInProgress_counterexample :
    (confirmationKeyHandler deleteConfirmState 'y').2
      = some (BackendCall.deleteBranch "feature-1" false) ∧
    (confirmationKeyHandler deleteConfirmState 'y').1.operationInProgress
      = none ∧
    (handleConfirmDelete deleteConfirmState false none []).operationInProgress
      = none :=
  ⟨rfl, rfl, rfl⟩

/-- State with every binary confirm overlay record populated, to exercise
each useInput prompt branch. -/
def allPromptsState : UIState :=
  { idleState with
      confirmation := some ⟨true, "feature-1"⟩,
      forceDeletePrompt := some ⟨true, "feature-2"⟩,
      checkoutPrompt := some ⟨true, "feature-3"⟩,
      mergePrompt := some ⟨true, "feature-4"⟩,
      rebasePrompt := some ⟨true, "feature-5"⟩,
      pushPrompt := some ⟨true, true⟩ }

/-- C8 amended: pressing yes in a binary confirm overlay issues the
corresponding backend call, but only the merge, rebase and push confirms
enter OperationInProgress; the delete and force-delete confirms issue the
call with no synchronous state change (their prompt is cleared by the
completion handler) and the checkout confirm clears its prompt; pressing
any other key cancels the overlay back to the resting state. There is no
exit confirmation overlay: quit keys in normal mode exit immediately. -/
theorem confirm_transitions (s : UIState) (pc pf pco pm pr : PromptInfo)
    (pp : PushPromptInfo) (c : Char) (viewportHeight : Int)
    (hcy : c ≠ 'y') (hcY : c ≠ 'Y')
    (hconf : s.confirmation = some pc)
    (hforce : s.forceDeletePrompt = some pf)
    (hco : s.checkoutPrompt = some pco)
    (hm : s.mergePrompt = some pm)
    (hr : s.rebasePrompt = some pr)
    (hp : s.pushPrompt = some pp) :
    confirmationKeyHandler s 'y'
      = (s, some (BackendCall.deleteBranch pc.branchName false)) ∧
    confirmationKeyHandler s c = ({ s with confirmation := none }, none) ∧
    forceDeleteKeyHandler s 'y'
      = (s, some (BackendCall.deleteBranch pf.branchName true)) ∧
    forceDeleteKeyHandler s c = ({ s with forceDeletePrompt := none }, none) ∧
    mergePromptKeyHandler s 'y'
      = ({ s with mergePrompt := none, operationInProgress := some "Merging..." },
         some (BackendCall.merge pm.branchName)) ∧
    mergePromptKeyHandler s c = ({ s with mergePrompt := none }, none) ∧
    rebasePromptKeyHandler s 'y'
      = ({ s with rebasePrompt := none,
                  operationInProgress := some "Rebasing..." },
         some (BackendCall.rebase pr.branchName)) ∧
    rebasePromptKeyHandler s c = ({ s with rebasePrompt := none }, none) ∧
    pushPromptKeyHandler s 'y'
      = ({ s with pushPrompt := none, operationInProgress := some "Pushing..." },
         some (BackendCall.push true)) ∧
    pushPromptKeyHandler s c = ({ s with pushPrompt := none }, none) ∧
    checkoutPromptKeyHandler s viewportHeight 'y'
      = ({ s with checkoutPrompt := none },
         some (BackendCall.checkout pco.branchName)) ∧
    (checkoutPromptKeyHandler s viewportHeight c).1.checkoutPrompt = none ∧
    (checkoutPromptKeyHandler s viewportHeight c).2 = none := by
  refine ⟨?_, ?_, ?_, ?_, ?_, ?_, ?_, ?_, ?_, ?_, ?_, ?_, ?_⟩ <;>
    simp [confirmationKeyHandler, forceDeleteKeyHandler, mergePromptKeyHandler,
      rebasePromptKeyHandler, pushPromptKeyHandler, checkoutPromptKeyHandler,
      handleConfirmDeleteStart, handleCancelDelete, handleForceDeleteStart,
      handleCancelForceDelete, handleConfirmMergeStart, handleCancelMerge,
      handleConfirmRebaseStart, handleCancelRebase, handleConfirmPushStart,
      handleCancelPush, handleCheckoutPromptStart,
      hconf, hforce, hco, hm, hr, hp, hcy, hcY]

/-- Witness for C8 at a state with every prompt populated and the cancel
key n. -/
theorem confirm_transitions_witness :
    confirmationKeyHandler allPromptsState 'y'
      = (allPromptsState, some (BackendCall.deleteBranch "feature-1" false)) ∧
    confirmationKeyHandler allPromptsState 'n'
      = ({ allPromptsState with confirmation := none }, none) ∧
    mergePromptKeyHandler allPromptsState 'y'
      = ({ allPromptsState with
             mergePrompt := none,
             operationInProgress := some "Merging..." },
         some (BackendCall.merge "feature-4")) :=
  have h := confirm_transitions allPromptsState ⟨true, "feature-1"⟩
    ⟨true, "feature-2"⟩ ⟨true, "feature-3"⟩ ⟨true, "feature-4"⟩
    ⟨true, "feature-5"⟩ ⟨true, true⟩ 'n' 7 (by decide) (by decide)
    rfl rfl rfl rfl rfl rfl
  ⟨h.1, h.2.1, h.2.2.2.2.1⟩

lemma branchRank_le_two (b : BranchInfo) : branchRank b ≤ 2 := by
  unfold branchRank
  split_ifs <;> omega

lemma branchLe_of_rank_lt (a b : BranchInfo)
    (h : branchRank a < branchRank b) : branchLe a b = true := by
  unfold branchRank at h
  unfold branchLe branchCompare
  split_ifs at h ⊢ <;> first | rfl | (exfalso; omega)

lemma branchLe_of_rank_eq_le1 (a b : BranchInfo)
    (h : branchRank a = branchRank b) (h1 : branchRank a ≤ 1) :
    branchLe a b = true := by
  unfold branchRank at h h1
  unfold branchLe branchCompare
  split_ifs at h h1 ⊢ <;> first | rfl | (exfalso; omega)

lemma branchLe_of_rank_eq_name_le (a b : BranchInfo)
    (h : branchRank a = branchRank b) (hn : a.name ≤ b.name) :
    branchLe a b = true := by
  unfold branchRank at h
  unfold branchLe branchCompare
  split_ifs at h ⊢ <;>
    first
      | rfl
      | (exfalso; omega)
      | (exact absurd hn (not_le_of_lt (by assumption)))

lemma rank_le_of_branchLe (a b : BranchInfo)
    (h : branchLe a b = true) : branchRank a ≤ branchRank b := by
  unfold branchLe branchCompare at h
  unfold branchRank
  split_ifs at h ⊢ <;> first | omega | simp at h

lemma name_le_of_branchLe (a b : BranchInfo)
    (h : branchLe a b = true) (ha : branchRank a = 2)
    (hb : branchRank b = 2) : a.name ≤ b.name := by
  unfold branchRank at ha hb
  unfold branchLe branchCompare at h
  split_ifs at h ha hb <;>
    first
      | omega
      | (exact le_of_lt (by assumption))
      | (exact le_of_not_lt (by assumption))
      | simp at h

lemma branchLe_total (a b : BranchInfo) :
    (branchLe a b || branchLe b a) = true := by
  rw [Bool.or_eq_true]
  rcases Nat.lt_trichotomy (branchRank a) (branchRank b) with h | h | h
  · exact Or.inl (branchLe_of_rank_lt a b h)
  · by_cases h1 : branchRank a ≤ 1
    · exact Or.inl (branchLe_of_rank_eq_le1 a b h h1)
    · rcases le_total a.name b.name with hn | hn
      · exact Or.inl (branchLe_of_rank_eq_name_le a b h hn)
      · exact Or.inr (branchLe_of_rank_eq_name_le b a h.symm hn)
  · exact Or.inr (branchLe_of_rank_lt b a h)

lemma branchLe_trans (a b c : BranchInfo)
    (hab : branchLe a b = true) (hbc : branchLe b c = true) :
    branchLe a c = true := by
  have r1 := rank_le_of_branchLe a b hab
  have r2 := rank_le_of_branchLe b c hbc
  rcases Nat.lt_or_ge (branchRank a) (branchRank c) with h | h
  · exact branchLe_of_rank_lt a c h
  · have he : branchRank a = branchRank c := le_antisymm (r1.trans r2) h
    by_cases h1 : branchRank a ≤ 1
    · exact branchLe_of_rank_eq_le1 a c he h1
    · have ha2 : branchRank a = 2 := by
        have := branchRank_le_two a
        omega
      have hb2 : branchRank b = 2 := by
        have := branchRank_le_two b
        omega
      have hc2 : branchRank c = 2 := by omega
      have n1 := name_le_of_branchLe a b hab ha2 hb2
      have n2 := name_le_of_branchLe b c hbc hb2 hc2
      exact branchLe_of_rank_eq_name_le a c he (n1.trans n2)

lemma branchLe_claimOrder (a b : BranchInfo)
    (h : branchLe a b = true) : claimOrder a b :=
  ⟨rank_le_of_branchLe a b h, fun ha hb => name_le_of_branchLe a b h ha hb⟩

/-- C10: every snapshot produced by the branch-listing sort is a permutation
of its input that is ordered with the current branch first, then a branch
named main or master, then the remaining branches in ascending alphabetical
order of name, and the filter engine preserves this order, returning a
sublist of the sorted snapshot. -/
theorem branch_sort_order (l : List BranchInfo) :
    (sortBranches l).Perm l ∧
    (sortBranches l).Pairwise claimOrder ∧
    ∀ (compileRegex : String → Option (String → Bool)) (search : SearchState),
      (filterBranches compileRegex (sortBranches l) search).1.Sublist
        (sortBranches l) := by
  refine ⟨List.mergeSort_perm l branchLe, ?_, ?_⟩
  · have hs := List.sorted_mergeSort branchLe_trans branchLe_total l
    exact hs.imp fun h => branchLe_claimOrder _ _ h
  · intro compileRegex search
    unfold filterBranches
    split_ifs
    · exact List.Sublist.refl _
    · rcases search with ⟨a, q, m⟩
      cases m
      · exact List.filter_sublist _
      · rcases hc : compileRegex q with _ | test
        · simp only [hc]
          exact List.Sublist.refl _
        · simp only [hc]
          exact List.filter_sublist _

end Rosella
